import Mathlib

/-!
Verification of the PodAI news-to-podcast generation pipeline.

Text is modelled as `List Char` (one entry per UTF-16 code unit of the
JavaScript string; all inputs considered here are ASCII, where the two
coincide).  JavaScript string primitives (`substring`, `lastIndexOf`,
`replace`, `trim`, `split`) are translated into executable Lean functions.
External capabilities (HTTP fetch, the hosted text-generation model, the
hosted TTS service, the relational store and the object store) are modelled
as oracle fields of an environment record, and the orchestrator is a pure
function from that environment to a result paired with a trace of the
external calls it makes.
-/

/-- Convert a Lean string literal to the character-list representation. -/
def str (s : String) : List Char := s.data

/-- Case-sensitive prefix test, modelling JavaScript `String.startsWith`. -/
def hasPre (pat s : List Char) : Bool :=
  match pat, s with
  | [], _ => true
  | _ :: _, [] => false
  | p :: ps, c :: cs => p == c && hasPre ps cs

/-- Single pass collapsing every maximal whitespace run to one space,
modelling `replace(/\s+/g, ' ')`.  The boolean records whether the previous
character was part of a whitespace run. -/
def collapseWsAux : Bool → List Char → List Char
  | _, [] => []
  | prevWs, c :: rest =>
    if c.isWhitespace then
      if prevWs then collapseWsAux true rest
      else ' ' :: collapseWsAux true rest
    else c :: collapseWsAux false rest

/-- `replace(/\s+/g, ' ')` from the source cleanup chain. -/
def collapseWs (s : List Char) : List Char := collapseWsAux false s

/-- JavaScript `String.trim`: drop leading and trailing whitespace. -/
def trimWs (s : List Char) : List Char :=
  ((s.dropWhile Char.isWhitespace).reverse.dropWhile Char.isWhitespace).reverse

/-- Index of the last occurrence of a character, if any (auxiliary for
JavaScript `lastIndexOf`). -/
def lastIndexOfAux (c : Char) : List Char → Option Nat
  | [] => none
  | x :: xs =>
    match lastIndexOfAux c xs with
    | some i => some (i + 1)
    | none => if x = c then some 0 else none

/-- JavaScript `String.lastIndexOf` for a single character: the index of the
last occurrence, or `-1` when absent. -/
def lastIndexOf (c : Char) (s : List Char) : Int :=
  match lastIndexOfAux c s with
  | some i => (i : Int)
  | none => -1

/-- The truncation policy that appears (with constants 1000/800 for content
and 800/600 for TTS input) at four places in the source: if the text exceeds
`limit`, cut to the first `limit` characters, then, if the last period of
that prefix lies strictly after `boundary`, cut to end just after that
period.  Mirrors:
`t = s.substring(0, limit); p = t.lastIndexOf('.'); if (p > boundary) t = t.substring(0, p + 1)`. -/
def truncateAtBoundary (limit boundary : Nat) (s : List Char) : List Char :=
  if limit < s.length then
    let t := s.take limit
    let lastPeriod := lastIndexOf '.' t
    if (boundary : Int) < lastPeriod then t.take (lastPeriod.toNat + 1) else t
  else s

/-- The 1000-character content truncation used in `scrapeWebpage`,
`generatePodcastSync` step 3 and `summarizeArticle`. -/
def truncate1000 (s : List Char) : List Char := truncateAtBoundary 1000 800 s

/-- The 800-character TTS input truncation used in `generateAudio`. -/
def truncate800 (s : List Char) : List Char := truncateAtBoundary 800 600 s

/-- JavaScript `ToInt32`: reduce an integer to the range `[-2^31, 2^31)`. -/
def jsToInt32 (n : Int) : Int :=
  ((n + 2147483648) % 4294967296) - 2147483648

/-- One step of the `generateCacheKey` hash loop from `database.js`:
`hash = ((hash << 5) - hash) + char; hash = hash & hash;`.
`hash` is already a 32-bit integer, so `hash << 5` is `ToInt32(hash * 32)`,
the addition is exact, and `hash & hash` re-coerces to 32 bits. -/
def hashStep (hash : Int) (c : Char) : Int :=
  jsToInt32 (jsToInt32 (hash * 32) - hash + (c.toNat : Int))

/-- The full hash loop of `generateCacheKey` over the URL characters. -/
def hashString (s : List Char) : Int := s.foldl hashStep 0

/-- Base-36 digit characters, as produced by JavaScript `toString(36)`. -/
def digit36 (n : Nat) : Char :=
  if n < 10 then Char.ofNat (48 + n) else Char.ofNat (87 + n)

/-- Fuel-driven base-36 digit expansion (most significant first); 64 units of
fuel are ample for any 32-bit magnitude. -/
def base36Aux : Nat → Nat → List Char
  | 0, _ => []
  | fuel + 1, n => if n = 0 then [] else base36Aux fuel (n / 36) ++ [digit36 (n % 36)]

/-- JavaScript `Math.abs(hash).toString(36)` on a natural number. -/
def natToBase36 (n : Nat) : List Char :=
  if n = 0 then str "0" else base36Aux 64 n

/-- `generateCacheKey` from `database.js`: the 32-bit string hash of the URL,
made non-negative, rendered in base 36. -/
def generateCacheKey (url : List Char) : List Char :=
  natToBase36 (hashString url).natAbs

/-- Case-insensitive character comparison (the source regexes for script and
style blocks carry the `i` flag). -/
def ciEq (a b : Char) : Bool := a.toLower == b.toLower

/-- Case-insensitive prefix test. -/
def ciIsPre (pat s : List Char) : Bool :=
  match pat, s with
  | [], _ => true
  | _ :: _, [] => false
  | p :: ps, c :: cs => ciEq p c && ciIsPre ps cs

/-- JavaScript word character, for the `\b` boundary after `<script`. -/
def isWordChar (c : Char) : Bool := c.isAlphanum || c == '_'

/-- The regex `\b` boundary holds after the open tag when the next character
is not a word character (or the text ends). -/
def boundaryOk : List Char → Bool
  | [] => true
  | c :: _ => !isWordChar c

/-- Drop characters up to and including the first case-insensitive occurrence
of `pat`; `none` when `pat` never occurs.  Fuel-driven scan. -/
def dropThroughCI (pat : List Char) : Nat → List Char → Option (List Char)
  | 0, _ => none
  | fuel + 1, s =>
    match s with
    | [] => none
    | _ :: rest =>
      if ciIsPre pat s then some (s.drop pat.length)
      else dropThroughCI pat fuel rest

/-- Remove delimited blocks, modelling the source regexes
`/<script\b[^<]*(?:(?!<\/script>)<[^<]*)*<\/script>/gi` (and the `style`
variant, with `needB = true` for the `\b` boundary) and
`/<!--[\s\S]*?-->/g` (`needB = false`): from each occurrence of `openPat`
up to the first following `closePat`, the whole block is deleted; an open
pattern with no matching close is left in place, as the regex then fails to
match at that position. -/
def stripBlocks (openPat closePat : List Char) (needB : Bool) : Nat → List Char → List Char
  | 0, s => s
  | fuel + 1, s =>
    match s with
    | [] => []
    | c :: rest =>
      if ciIsPre openPat s && (!needB || boundaryOk (s.drop openPat.length)) then
        match dropThroughCI closePat (fuel + 1) (s.drop openPat.length) with
        | some rest2 => stripBlocks openPat closePat needB fuel rest2
        | none => c :: stripBlocks openPat closePat needB fuel rest
      else c :: stripBlocks openPat closePat needB fuel rest

/-- Given the text after a `<`, find the matching `>` of a tag `<[^>]+>`:
at least one non-`>` character followed by `>`.  Returns the text after the
`>`, or `none` when the regex does not match there. -/
def tagRest (rest : List Char) : Option (List Char) :=
  match rest with
  | [] => none
  | '>' :: _ => none
  | _ =>
    let inner := rest.takeWhile (fun c => c != '>')
    match rest.drop inner.length with
    | '>' :: tail => some tail
    | _ => none

/-- `replace(/<[^>]+>/g, ' ')`: every tag becomes a single space. -/
def stripTags : Nat → List Char → List Char
  | 0, s => s
  | fuel + 1, s =>
    match s with
    | [] => []
    | c :: rest =>
      if c == '<' then
        match tagRest rest with
        | some tail => ' ' :: stripTags fuel tail
        | none => c :: stripTags fuel rest
      else c :: stripTags fuel rest

/-- Replace every (case-sensitive) occurrence of `pat` by `repl`, modelling
the global entity-decoding replaces. -/
def replaceAllSub (pat repl : List Char) : Nat → List Char → List Char
  | 0, s => s
  | fuel + 1, s =>
    match s with
    | [] => []
    | c :: rest =>
      if pat ≠ [] ∧ List.isPrefixOf pat s then
        repl ++ replaceAllSub pat repl fuel (s.drop pat.length)
      else c :: replaceAllSub pat repl fuel rest

/-- The fixed entity-decoding chain of `scrapeWebpage`, applied in source
order. -/
def decodeEntities (s : List Char) : List Char :=
  let t := replaceAllSub (str "&nbsp;") (str " ") s.length s
  let t := replaceAllSub (str "&amp;") (str "&") t.length t
  let t := replaceAllSub (str "&lt;") (str "<") t.length t
  let t := replaceAllSub (str "&gt;") (str ">") t.length t
  let t := replaceAllSub (str "&quot;") (str "\"") t.length t
  let t := replaceAllSub (str "&#39;") (str "\x27") t.length t
  replaceAllSub (str "&apos;") (str "\x27") t.length t

/-- The HTML-to-text cleanup of `scrapeWebpage` (lines 34–62): strip script
blocks, style blocks and comments, strip remaining tags to spaces, decode
the fixed entity set, collapse whitespace runs, trim. -/
def cleanHtml (html : List Char) : List Char :=
  let t := stripBlocks (str "<script") (str "</script>") true html.length html
  let t := stripBlocks (str "<style") (str "</style>") true t.length t
  let t := stripBlocks (str "<!--") (str "-->") false t.length t
  let t := stripTags t.length t
  let t := decodeEntities t
  trimWs (collapseWs t)

/-- Failure cases of `scrapeWebpage`: the wrapped fetch rejection or
non-success status, a response body under 100 characters, and a cleaned
text under 100 characters.  Each matches one `throw` site in the source. -/
inductive ScrapeError
  | fetchFailed (msg : List Char)
  | insufficientBody
  | insufficientContent
deriving DecidableEq, Repr

/-- `scrapeWebpage` from `scraper.js`, over a fetch oracle giving the HTML
body of a URL (or the error of a failed or non-success fetch): validate the
body length, clean, truncate with the 1000/800 policy, and re-validate the
final length. -/
def scrapeWebpage (fetchHtml : List Char → Except (List Char) (List Char))
    (url : List Char) : Except ScrapeError (List Char) :=
  match fetchHtml url with
  | .error msg => .error (.fetchFailed msg)
  | .ok html =>
    if html.length < 100 then .error .insufficientBody
    else
      let textContent := truncate1000 (cleanHtml html)
      if textContent.length < 100 then .error .insufficientContent
      else .ok textContent

/-- The fields of the platform URL object that `extractTitle` reads. -/
structure UrlObject where
  hostname : List Char
  pathname : List Char
deriving DecidableEq, Repr

/-- Index of the first occurrence of `pat` (case-sensitive), if any. -/
def findSubIdx (pat : List Char) : Nat → List Char → Option Nat
  | 0, _ => none
  | fuel + 1, s =>
    match s with
    | [] => if List.isPrefixOf pat [] ∧ pat ≠ [] then some 0 else none
    | _ :: rest =>
      if List.isPrefixOf pat s then some 0
      else match findSubIdx pat fuel rest with
           | some i => some (i + 1)
           | none => none

/-- Model of the platform `new URL(...)` constructor, restricted to what
`extractTitle` consumes: an absolute URL `scheme://host[path]` parses into a
lowercased hostname and a pathname defaulting to `/`; a string with no
`://`, an empty scheme, a non-alphabetic scheme start or an empty host
fails to parse (the constructor throws).  This follows the WHATWG behavior
on the special-scheme URLs this service receives. -/
def parseUrl (url : List Char) : Option UrlObject :=
  match findSubIdx (str "://") url.length url with
  | none => none
  | some i =>
    let scheme := url.take i
    let rest := url.drop (i + 3)
    let host := rest.takeWhile (fun c => c != '/' && c != '?' && c != '#')
    let path := rest.drop host.length
    if scheme = [] ∨ ¬ (scheme.all Char.isAlpha) ∨ host = [] then none
    else
      some { hostname := host.map Char.toLower
             pathname :=
               match path with
               | [] => str "/"
               | _ => path.takeWhile (fun c => c != '?' && c != '#') }

/-- Split a character list on a separator character, keeping empty pieces,
modelling JavaScript `split('/')`. -/
def splitOnCh (sep : Char) : List Char → List (List Char)
  | [] => [[]]
  | c :: rest =>
    let tails := splitOnCh sep rest
    if c = sep then [] :: tails
    else match tails with
         | [] => [[c]]
         | t :: ts => (c :: t) :: ts

/-- JavaScript `String.replace` with a plain-string pattern: replace only the
first occurrence (used for `hostname.replace('www.', '')`). -/
def replaceFirstSub (pat repl : List Char) : Nat → List Char → List Char
  | 0, s => s
  | fuel + 1, s =>
    match s with
    | [] => []
    | c :: rest =>
      if pat ≠ [] ∧ List.isPrefixOf pat s then repl ++ s.drop pat.length
      else c :: replaceFirstSub pat repl fuel rest

/-- `replace(/\.[^.]+$/, '')`: strip a trailing file extension — the match
exists exactly when the last period has at least one character after it. -/
def stripExtension (s : List Char) : List Char :=
  match lastIndexOfAux '.' s with
  | some i => if i + 1 < s.length then s.take i else s
  | none => s

/-- One word of the title-casing pass:
`word.charAt(0).toUpperCase() + word.slice(1).toLowerCase()`. -/
def capitalizeWord : List Char → List Char
  | [] => []
  | c :: rest => c.toUpper :: rest.map Char.toLower

/-- Join pieces with a single separator character (JavaScript `join(' ')`). -/
def joinWithCh (sep : Char) : List (List Char) → List Char
  | [] => []
  | [w] => w
  | w :: ws => w ++ sep :: joinWithCh sep ws

/-- The title text `extractTitle` computes before its fallback and clamp
(lines 99–131 of `scraper.js`): last non-empty path segment, or the
hostname with the first `www.` removed when there is none; strip a trailing
extension, turn hyphens and underscores into spaces, title-case each
space-separated word, collapse whitespace, trim. -/
def rawTitle (u : UrlObject) : List Char :=
  let pathSegments := (splitOnCh '/' u.pathname).filter (fun seg => seg.length > 0)
  let titleSegment :=
    match pathSegments.reverse with
    | [] => replaceFirstSub (str "www.") [] u.hostname.length u.hostname
    | lastSeg :: _ => lastSeg
  let titleSegment := stripExtension titleSegment
  let title := titleSegment.map (fun c => if c = '-' ∨ c = '_' then ' ' else c)
  let title := joinWithCh ' ' ((splitOnCh ' ' title).map capitalizeWord)
  trimWs (collapseWs title)

/-- `extractTitle` from `scraper.js`: derive a title from the URL shape
alone, falling back to `"Article"` when parsing fails or the derived text is
empty or under 3 characters, and clamping to 100 characters. -/
def extractTitle (url : List Char) : List Char :=
  match parseUrl url with
  | none => str "Article"
  | some u =>
    let title := rawTitle u
    let title := if title.isEmpty || title.length < 3 then str "Article" else title
    if 100 < title.length then trimWs (title.take 100) else title

/-- Try to match `^(Here's|Here is|This is|I've created).*?:` (the `i` flag,
`.` not crossing a newline, lazy up to the first colon); on a match return
the text after the colon. -/
def matchPreamble1 (s : List Char) : Option (List Char) :=
  let alts := [str "Here's", str "Here is", str "This is", str "I've created"]
  match alts.find? (fun a => ciIsPre a s) with
  | none => none
  | some a =>
    let after := s.drop a.length
    let middle := after.takeWhile (fun c => c != ':' && c != '\n')
    match after.drop middle.length with
    | ':' :: tail => some tail
    | _ => none

/-- `replace(/^(Here's|Here is|This is|I've created).*?:/i, '')`. -/
def stripPreamble1 (s : List Char) : List Char :=
  match matchPreamble1 s with
  | some rest => rest
  | none => s

/-- `replace(/^(Sure|Okay|Alright)[,!.]?\s*/i, '')`: an opener word, an
optional single punctuation mark, then any whitespace, all removed. -/
def stripPreamble2 (s : List Char) : List Char :=
  let alts := [str "Sure", str "Okay", str "Alright"]
  match alts.find? (fun a => ciIsPre a s) with
  | none => s
  | some a =>
    let after := s.drop a.length
    let after :=
      match after with
      | c :: tail => if c = ',' ∨ c = '!' ∨ c = '.' then tail else after
      | [] => after
    after.dropWhile Char.isWhitespace

/-- The post-processing `summarizeArticle` applies to the raw model output
(lines 503–509 of the ai helper): trim, strip the two preamble patterns,
trim again. -/
def cleanSummary (raw : List Char) : List Char :=
  trimWs (stripPreamble2 (stripPreamble1 (trimWs raw)))

/-- Failure cases of `summarizeArticle`, one per `throw` site: missing AI
binding, missing/empty content, content under 100 characters, a failing or
unrecognized model call, and a cleaned result under 50 characters. -/
inductive SumError
  | aiUnavailable
  | invalidContent
  | contentTooShort
  | aiFailure (msg : List Char)
  | insufficientOutput (lengthGot : Nat)
deriving DecidableEq, Repr

/-- `SumError` cases that correspond to rejecting the summarizer input
(`InvalidInputError` in the specification taxonomy). -/
def SumError.isInvalidInput : SumError → Bool
  | .invalidContent => true
  | .contentTooShort => true
  | _ => false

/-- The model oracle: given the processed article text submitted inside the
fixed prompt, the normalized response text, or the error of a failed call or
unrecognized response shape. -/
abbrev AiRun := List Char → Except (List Char) (List Char)

/-- `summarizeArticle` from the AI helper: validate the binding and the
input, re-apply the 1000/800 truncation, invoke the model (the fixed system
and user prompt wrapper and the response-shape normalization are folded
into the oracle), clean the output, and validate its length. -/
def summarizeArticle (ai : Option AiRun) (content : List Char) :
    Except SumError (List Char) :=
  match ai with
  | none => .error .aiUnavailable
  | some run =>
    if content.isEmpty then .error .invalidContent
    else if content.length < 100 then .error .contentTooShort
    else
      let processedContent := truncate1000 content
      match run processedContent with
      | .error msg => .error (.aiFailure msg)
      | .ok raw =>
        let summary := cleanSummary raw
        if summary.isEmpty || summary.length < 50 then
          .error (.insufficientOutput summary.length)
        else .ok summary

/-- Failure cases of `generateAudio`, one per `throw` site: missing
credential, blank input, failing upstream call, empty returned audio. -/
inductive TTSError
  | noApiKey
  | emptyInput
  | upstream (msg : List Char)
  | emptyOutput
deriving DecidableEq, Repr

/-- A persisted podcast row (`podcasts` table / `podcastData` object).
The surrogate `id` and `createdAt` are assigned by the store and the clock
and are optional here; `audioSizeBytes` stands for the audio buffer, whose
only observed attribute is its byte length. -/
structure PodcastRecord where
  id : Option Nat := none
  url : List Char
  title : List Char
  summary : List Char
  audioFileName : List Char
  audioUrl : Option (List Char)
  createdAt : Option (List Char) := none
  userId : List Char
  status : List Char
  processingTimeMs : Nat := 0
  contentLength : Nat := 0
  summaryLength : Nat := 0
  audioSizeBytes : Nat := 0
  cacheKey : List Char := []
deriving DecidableEq, Repr

deriving instance DecidableEq for Except

/-- One external call made by the orchestrator, in order: the database
lookup, the page scrape, the model call, the TTS call, the object-store
write, the record save (with the outcome the store reported), and — for
completeness of the persistence vocabulary — a `logProcessingError` write of
a `ProcessingLogEntry`. -/
inductive Effect
  | dbLookup (url : List Char)
  | scrape (url : List Char)
  | summarize (content : List Char)
  | synthesize (text : List Char)
  | r2Put (key : List Char)
  | dbSave (rec : PodcastRecord) (outcome : Except Unit Bool)
  | logError (url : List Char)
deriving DecidableEq, Repr

/-- Effects that invoke a content-producing pipeline step (extraction,
summarization or synthesis). -/
def Effect.isPipelineCall : Effect → Bool
  | .scrape _ => true
  | .summarize _ => true
  | .synthesize _ => true
  | _ => false

/-- Effects that record a `ProcessingLogEntry`. -/
def Effect.isLog : Effect → Bool
  | .logError _ => true
  | _ => false

/-- Effects that attempt a record save whose outcome is a raised error or a
reported failure. -/
def Effect.isFailedSave : Effect → Bool
  | .dbSave _ (.error _) => true
  | .dbSave _ (.ok b) => !b
  | _ => false

/-- The worker environment seen by `generatePodcastSync`: presence of the
bindings and the behavior of each external capability on this request.
`lookup` models `getPodcastByUrl` (`.error` for a thrown query, `.ok none`
for a miss), `save` models `savePodcast` (`.error` for a throw, `.ok b` for
a returned success flag), and `elapsedMs`/`nowIso` model the clock reads. -/
structure Env where
  dbPresent : Bool
  lookup : List Char → Except Unit (Option PodcastRecord)
  fetchHtml : List Char → Except (List Char) (List Char)
  ai : Option AiRun
  ttsKeyPresent : Bool
  ttsRun : List Char → Except (List Char) Nat
  bucketPresent : Bool
  r2Put : List Char → Except (List Char) Unit
  save : PodcastRecord → Except Unit Bool
  elapsedMs : Nat := 0
  nowIso : List Char := []

/-- `generateAudio` from `scraper.js`: require the credential and non-blank
text, apply the 800/600 truncation, submit to the TTS oracle, reject an
empty audio buffer. -/
def generateAudio (env : Env) (text : List Char) : Except TTSError Nat :=
  if ¬ env.ttsKeyPresent then .error .noApiKey
  else if (trimWs text).length = 0 then .error .emptyInput
  else
    let processedText := truncate800 text
    match env.ttsRun processedText with
    | .error msg => .error (.upstream msg)
    | .ok n => if n = 0 then .error .emptyOutput else .ok n

/-- Failure cases of `generatePodcastSync`, one per `throw` reaching its
outer catch: the wrapped scrape error, the redundant post-scrape length
check, the missing AI binding, the wrapped summarization error, the
redundant short-summary check, the wrapped audio error, the redundant
empty-audio check, the missing object-store binding, and a failed
object-store write. -/
inductive GenError
  | scrapeFailed (e : ScrapeError)
  | insufficientContent
  | aiUnavailable
  | summarizeFailed (e : SumError)
  | insufficientSummary
  | audioFailed (e : TTSError)
  | emptyAudio
  | storageNotConfigured
  | storeFailed (msg : List Char)
deriving DecidableEq, Repr

/-- The success payload of `generatePodcastSync`: the record spread into the
response, plus the `cached` marker added on the database-hit path. -/
structure ResultData where
  record : PodcastRecord
  cached : Bool
deriving DecidableEq, Repr

/-- The observable behavior of one `generatePodcastSync` run: the returned
result and the trace of external calls, in order. -/
structure GenOutcome where
  result : Except GenError ResultData
  effects : List Effect
deriving DecidableEq, Repr

/-- The optional-chaining test `!cachedData.audioUrl?.startsWith('http')`:
true when the stored URL is absent or does not start with `http`. -/
def audioUrlNotHttp : Option (List Char) → Bool
  | none => true
  | some u => !hasPre (str "http") u

/-- The cache-hit touch-up of lines 647–649: when the stored record has an
audio file name and its stored `audioUrl` does not already start with
`http`, replace it by the fully qualified `origin`-based URL. -/
def augmentCachedAudioUrl (origin : List Char) (rec : PodcastRecord) : PodcastRecord :=
  if !rec.audioFileName.isEmpty && audioUrlNotHttp rec.audioUrl then
    { rec with audioUrl := some (origin ++ str "/audio/" ++ rec.audioFileName) }
  else rec

/-- The `podcastData` object assembled at lines 763–776 after every step
succeeded, together with the full audio URL and `createdAt` added to the
returned copy. -/
def assembleRecord (env : Env) (url userId origin title summary : List Char)
    (contentLength audioBytes : Nat) (fileName : List Char) : PodcastRecord :=
  { url := url
    title := title
    summary := summary
    audioFileName := fileName
    audioUrl := some (origin ++ str "/audio/" ++ fileName)
    createdAt := some env.nowIso
    userId := userId
    status := str "completed"
    processingTimeMs := env.elapsedMs
    contentLength := contentLength
    summaryLength := summary.length
    audioSizeBytes := audioBytes
    cacheKey := generateCacheKey url }

/-- Steps 2–6 of `generatePodcastSync` (the cache-miss path): scrape and
derive the title, summarize with the re-applied truncation, synthesize,
store the audio object under `podcast_<cacheKey>.mp3`, then attempt the
best-effort record save, whose outcome is observed only in the trace. -/
def generateFresh (env : Env) (url userId origin : List Char)
    (eff0 : List Effect) : GenOutcome :=
  let title := extractTitle url
  let eff1 := eff0 ++ [Effect.scrape url]
  match scrapeWebpage env.fetchHtml url with
  | .error e => ⟨.error (.scrapeFailed e), eff1⟩
  | .ok content =>
    if content.length < 100 then ⟨.error .insufficientContent, eff1⟩
    else match env.ai with
    | none => ⟨.error .aiUnavailable, eff1⟩
    | some _ =>
      let truncatedContent := truncate1000 content
      let eff2 := eff1 ++ [Effect.summarize truncatedContent]
      match summarizeArticle env.ai truncatedContent with
      | .error e => ⟨.error (.summarizeFailed e), eff2⟩
      | .ok summary =>
        if summary.length < 30 then ⟨.error .insufficientSummary, eff2⟩
        else
          let eff3 := eff2 ++ [Effect.synthesize summary]
          match generateAudio env summary with
          | .error e => ⟨.error (.audioFailed e), eff3⟩
          | .ok audioBytes =>
            if audioBytes = 0 then ⟨.error .emptyAudio, eff3⟩
            else if ¬ env.bucketPresent then ⟨.error .storageNotConfigured, eff3⟩
            else
              let fileName := str "podcast_" ++ generateCacheKey url ++ str ".mp3"
              let eff4 := eff3 ++ [Effect.r2Put fileName]
              match env.r2Put fileName with
              | .error msg => ⟨.error (.storeFailed msg), eff4⟩
              | .ok _ =>
                let record := assembleRecord env url userId origin title summary
                  content.length audioBytes fileName
                if env.dbPresent then
                  ⟨.ok ⟨record, false⟩, eff4 ++ [Effect.dbSave record (env.save record)]⟩
                else
                  ⟨.ok ⟨record, false⟩, eff4⟩

/-- `generatePodcastSync` from the worker entry: check the database first
(a thrown or missing lookup falls through to the fresh pipeline), return a
hit as the stored record with the `cached` marker and a qualified audio
URL, and otherwise run the pipeline.  The idempotent `initializeDatabase`
schema call has no bearing on control flow and is not modelled. -/
def generatePodcastSync (env : Env) (url userId origin : List Char) : GenOutcome :=
  if env.dbPresent then
    match env.lookup url with
    | .ok (some rec) =>
      ⟨.ok ⟨augmentCachedAudioUrl origin rec, true⟩, [Effect.dbLookup url]⟩
    | _ => generateFresh env url userId origin [Effect.dbLookup url]
  else generateFresh env url userId origin []

/-- Effects that attempt a record save, regardless of outcome. -/
def Effect.isSaveAny : Effect → Bool
  | .dbSave _ _ => true
  | _ => false

/-- The pipeline invariant verified over every run: no `ProcessingLogEntry`
is ever recorded; a record reaches a save attempt only when the run
succeeded with that record, status `completed`, a non-empty synthesized
audio object already written under the record's file name; and every fresh
(non-cached) success carries the deterministic
`podcast_<cacheKey(url)>.mp3` object key. -/
def PipelineInv (env : Env) (url : List Char) (o : GenOutcome) : Prop :=
  (o.effects.all (fun e => !e.isLog) = true)
  ∧ (∀ rec oc, Effect.dbSave rec oc ∈ o.effects →
      rec.status = str "completed"
      ∧ o.result = .ok ⟨rec, false⟩
      ∧ generateAudio env rec.summary = .ok rec.audioSizeBytes
      ∧ rec.audioSizeBytes ≠ 0
      ∧ env.r2Put rec.audioFileName = .ok ()
      ∧ Effect.synthesize rec.summary ∈ o.effects
      ∧ Effect.r2Put rec.audioFileName ∈ o.effects)
  ∧ (∀ d, o.result = .ok d → d.cached = false →
      d.record.status = str "completed"
      ∧ d.record.audioFileName = str "podcast_" ++ generateCacheKey url ++ str ".mp3"
      ∧ d.record.cacheKey = generateCacheKey url
      ∧ Effect.r2Put d.record.audioFileName ∈ o.effects)

/-- Test URL used by the concrete witnesses. -/
def urlStory : List Char := str "https://news.example/story-1"

/-- Test owner identifier. -/
def ownerA : List Char := str "user-1"

/-- Test worker origin. -/
def originA : List Char := str "https://worker.example"

/-- A 150-character plain response body: long enough to pass both length
gates, and fixed by the HTML cleanup. -/
def bodyPlain150 : List Char := List.replicate 150 'a'

/-- An 80-character model output with no preamble to strip. -/
def modelOut80 : List Char := List.replicate 80 'b'

/-- An environment in which every external capability succeeds. -/
def envOk : Env where
  dbPresent := true
  lookup := fun _ => .ok none
  fetchHtml := fun _ => .ok bodyPlain150
  ai := some (fun _ => .ok modelOut80)
  ttsKeyPresent := true
  ttsRun := fun _ => .ok 10000
  bucketPresent := true
  r2Put := fun _ => .ok ()
  save := fun _ => .ok true

/-- As `envOk`, but the record save throws. -/
def envSaveThrows : Env := { envOk with save := fun _ => .error () }

/-- As `envOk`, but the model call fails. -/
def envAiFails : Env := { envOk with ai := some (fun _ => .error (str "model error")) }

/-- A completed record as the store would return it for `urlStory`. -/
def recStored : PodcastRecord where
  id := some 7
  url := urlStory
  title := str "Story 1"
  summary := modelOut80
  audioFileName := str "podcast_r8v9js.mp3"
  audioUrl := none
  createdAt := some (str "2025-01-01 00:00:00")
  userId := ownerA
  status := str "completed"
  processingTimeMs := 123
  contentLength := 150
  summaryLength := 80
  audioSizeBytes := 10000
  cacheKey := str "r8v9js"

/-- As `envOk`, but the lookup finds `recStored`. -/
def envHit : Env := { envOk with lookup := fun _ => .ok (some recStored) }

/-- A 50-character response body, under the minimum. -/
def body50 : List Char := List.replicate 50 'a'

/-- An exactly 100-character plain response body. -/
def body100 : List Char := List.replicate 100 'a'

/-- A 123-character body that cleans down to 3 characters. -/
def bodyThin : List Char := List.replicate 120 ' ' ++ str "abc"

/-- A 1200-character text whose only period sits at position 850. -/
def specimen850 : List Char := List.replicate 850 'a' ++ '.' :: List.replicate 349 'b'

/-- A 1200-character text with no period at all. -/
def specimen1200 : List Char := List.replicate 1200 'a'

/-- A 900-character script whose only period sits at position 650. -/
def specimen650 : List Char := List.replicate 650 'a' ++ '.' :: List.replicate 249 'b'

/-- A 900-character script with no period at all. -/
def specimen900 : List Char := List.replicate 900 'a'

theorem lastIndexOfAux_eq_none (c : Char) :
    ∀ s : List Char, (∀ j, j < s.length → s.get? j ≠ some c) →
      lastIndexOfAux c s = none := by
  intro s
  induction s with
  | nil => intro _; rfl
  | cons x xs ih =>
    intro h
    have hxs : lastIndexOfAux c xs = none := by
      apply ih
      intro j hj
      have := h (j + 1) (by simpa using Nat.succ_lt_succ hj)
      simpa using this
    have hx : ¬ x = c := by
      have := h 0 (by simp)
      simpa using this
    simp [lastIndexOfAux, hxs, hx]

theorem lastIndexOfAux_eq_some (c : Char) :
    ∀ (s : List Char) (i : Nat), s.get? i = some c →
      (∀ j, j < s.length → i < j → s.get? j ≠ some c) →
      lastIndexOfAux c s = some i := by
  intro s
  induction s with
  | nil => intro i hi _; simp [List.get?] at hi
  | cons x xs ih =>
    intro i hi hlater
    cases i with
    | zero =>
      have hx : x = c := by simpa using hi
      have hxs : lastIndexOfAux c xs = none := by
        apply lastIndexOfAux_eq_none
        intro j hj
        have := hlater (j + 1) (by simpa using Nat.succ_lt_succ hj) (Nat.succ_pos j)
        simpa using this
      simp [lastIndexOfAux, hxs, hx]
    | succ k =>
      have hk : xs.get? k = some c := by simpa using hi
      have hxs : lastIndexOfAux c xs = some k := by
        apply ih k hk
        intro j hj hgt
        have := hlater (j + 1) (by simpa using Nat.succ_lt_succ hj) (Nat.succ_lt_succ hgt)
        simpa using this
      simp [lastIndexOfAux, hxs]

theorem truncateAtBoundary_no_period (limit boundary : Nat) (s : List Char)
    (h : limit < s.length) (hnp : ∀ j, j < limit → s.get? j ≠ some '.') :
    truncateAtBoundary limit boundary s = s.take limit := by
  have htake : ∀ j, j < (s.take limit).length → (s.take limit).get? j ≠ some '.' := by
    intro j hj
    have hjl : j < limit := by
      simp [List.length_take] at hj
      omega
    rw [List.get?_take hjl]
    exact hnp j hjl
  have hnone : lastIndexOfAux '.' (s.take limit) = none :=
    lastIndexOfAux_eq_none _ _ htake
  have hneg : ¬ ((boundary : Int) < (-1 : Int)) := by omega
  unfold truncateAtBoundary
  simp [h, lastIndexOf, hnone, hneg]

theorem truncateAtBoundary_period (limit boundary : Nat) (s : List Char) (i : Nat)
    (h : limit < s.length) (hb : boundary < i) (hi : i < limit)
    (hp : s.get? i = some '.')
    (hl : ∀ j, j < limit → i < j → s.get? j ≠ some '.') :
    truncateAtBoundary limit boundary s = s.take (i + 1) := by
  have hsome : lastIndexOfAux '.' (s.take limit) = some i := by
    apply lastIndexOfAux_eq_some
    · rw [List.get?_take hi]; exact hp
    · intro j hj hgt
      have hjl : j < limit := by
        simp [List.length_take] at hj
        omega
      rw [List.get?_take hjl]
      exact hl j hjl hgt
  have hcast : (boundary : Int) < ((i : Nat) : Int) := by exact_mod_cast hb
  unfold truncateAtBoundary
  simp only [h, if_true, lastIndexOf, hsome, hcast, Int.toNat_natCast]
  rw [List.take_take]
  congr 1
  omega

theorem truncateAtBoundary_length_le (limit boundary : Nat) (s : List Char)
    (h : limit < s.length) :
    (truncateAtBoundary limit boundary s).length ≤ limit := by
  simp only [truncateAtBoundary, if_pos h]
  split
  · simp [List.length_take]
  · simp [List.length_take]

theorem take_getLast_period (s : List Char) (i : Nat) (hi : i < s.length)
    (hp : s.get? i = some '.') : (s.take (i + 1)).getLast? = some '.' := by
  have hlen : (s.take (i + 1)).length = i + 1 := by
    simp [List.length_take]
    omega
  rw [List.getLast?_eq_get?, hlen]
  simp only [Nat.add_sub_cancel]
  rw [List.get?_take (Nat.lt_succ_self i)]
  exact hp

/-- C4: for every cleaned text longer than 1000 characters, extraction first
cuts it to exactly 1000 characters; if that prefix has no period the result
is exactly the 1000-character prefix, and if its last period lies after
position 800 the result ends exactly at that period. -/
theorem extraction_truncation_boundary (s : List Char) (h : 1000 < s.length) :
    ((∀ j, j < 1000 → s.get? j ≠ some '.') →
        truncate1000 s = s.take 1000 ∧ (truncate1000 s).length = 1000)
    ∧ (∀ i, 800 < i → i < 1000 → s.get? i = some '.' →
        (∀ j, j < 1000 → i < j → s.get? j ≠ some '.') →
        truncate1000 s = s.take (i + 1) ∧ (truncate1000 s).getLast? = some '.') := by
  unfold truncate1000
  constructor
  · intro hnp
    have heq := truncateAtBoundary_no_period 1000 800 s h hnp
    refine ⟨heq, ?_⟩
    rw [heq]
    simp [List.length_take]
    omega
  · intro i hb hi hp hl
    have heq := truncateAtBoundary_period 1000 800 s i h hb hi hp hl
    refine ⟨heq, ?_⟩
    rw [heq]
    exact take_getLast_period s i (lt_trans hi h) hp

theorem get?_replicate_spec (c : Char) :
    ∀ (n m : Nat), (List.replicate n c).get? m = if m < n then some c else none := by
  intro n
  induction n with
  | zero => intro m; simp
  | succ k ih =>
    intro m
    cases m with
    | zero =>
      rw [List.replicate_succ]
      simp
    | succ p =>
      rw [List.replicate_succ, List.get?_cons_succ, ih p]
      simp [Nat.succ_lt_succ_iff]

theorem specimen850_length : specimen850.length = 1200 := by
  unfold specimen850
  rw [List.length_append, List.length_cons, List.length_replicate, List.length_replicate]

theorem specimen850_period : specimen850.get? 850 = some '.' := by
  have hlen : (List.replicate 850 'a').length = 850 := List.length_replicate 850 'a'
  unfold specimen850
  rw [List.get?_append_right (by rw [hlen])]
  rw [hlen, Nat.sub_self, List.get?_cons_zero]

theorem specimen850_no_late_period :
    ∀ j, j < 1000 → 850 < j → specimen850.get? j ≠ some '.' := by
  intro j hj hgt
  have hlen : (List.replicate 850 'a').length = 850 := List.length_replicate 850 'a'
  unfold specimen850
  rw [List.get?_append_right (by rw [hlen]; omega)]
  rw [hlen]
  have hsub : j - 850 = (j - 851) + 1 := by omega
  rw [hsub, List.get?_cons_succ, get?_replicate_spec]
  split
  · decide
  · simp

theorem specimen1200_length : specimen1200.length = 1200 := by
  unfold specimen1200
  rw [List.length_replicate]

theorem specimen1200_no_period :
    ∀ j, j < 1000 → specimen1200.get? j ≠ some '.' := by
  intro j _
  unfold specimen1200
  rw [get?_replicate_spec]
  split
  · decide
  · simp

theorem extraction_truncation_witness :
    truncate1000 specimen850 = specimen850.take 851
    ∧ (truncate1000 specimen850).getLast? = some '.'
    ∧ truncate1000 specimen1200 = specimen1200.take 1000
    ∧ (truncate1000 specimen1200).length = 1000 := by
  have h1 := (extraction_truncation_boundary specimen850
      (by rw [specimen850_length]; omega)).2 850
    (by omega) (by omega) specimen850_period specimen850_no_late_period
  have h2 := (extraction_truncation_boundary specimen1200
      (by rw [specimen1200_length]; omega)).1 specimen1200_no_period
  exact ⟨h1.1, h1.2, h2.1, h2.2⟩

theorem pipelineInv_error (env : Env) (url : List Char) (ge : GenError)
    (effs : List Effect)
    (hA : effs.all (fun e => !e.isLog) = true)
    (hB : effs.all (fun e => !e.isSaveAny) = true) :
    PipelineInv env url ⟨.error ge, effs⟩ := by
  refine ⟨hA, ?_, ?_⟩
  · intro rec oc hmem
    have hfalse := List.all_eq_true.mp hB _ hmem
    simp [Effect.isSaveAny] at hfalse
  · intro d hd
    simp at hd

theorem eff_log_false (eff0 : List Effect)
    (h : eff0.all (fun e => !e.isLog) = true) :
    ∀ x ∈ eff0, x.isLog = false := by
  intro x hx
  have hb := List.all_eq_true.mp h x hx
  simpa using hb

theorem eff_save_false (eff0 : List Effect)
    (h : eff0.all (fun e => !e.isSaveAny) = true) :
    ∀ x ∈ eff0, x.isSaveAny = false := by
  intro x hx
  have hb := List.all_eq_true.mp h x hx
  simpa using hb

theorem generateFresh_inv (env : Env) (url userId origin : List Char)
    (eff0 : List Effect)
    (h0log : eff0.all (fun e => !e.isLog) = true)
    (h0save : eff0.all (fun e => !e.isSaveAny) = true) :
    PipelineInv env url (generateFresh env url userId origin eff0) := by
  simp only [generateFresh]
  cases hscrape : scrapeWebpage env.fetchHtml url with
  | error err =>
    dsimp only
    exact pipelineInv_error _ _ _ _
      (by simp [List.all_append, Effect.isLog] <;> exact eff_log_false eff0 h0log)
      (by simp [List.all_append, Effect.isSaveAny] <;> exact eff_save_false eff0 h0save)
  | ok content =>
    dsimp only
    by_cases hlen : content.length < 100
    · rw [if_pos hlen]
      exact pipelineInv_error _ _ _ _
        (by simp [List.all_append, Effect.isLog] <;> exact eff_log_false eff0 h0log)
        (by simp [List.all_append, Effect.isSaveAny] <;> exact eff_save_false eff0 h0save)
    · rw [if_neg hlen]
      cases hai : env.ai with
      | none =>
        dsimp only
        exact pipelineInv_error _ _ _ _
          (by simp [List.all_append, Effect.isLog] <;> exact eff_log_false eff0 h0log)
          (by simp [List.all_append, Effect.isSaveAny] <;> exact eff_save_false eff0 h0save)
      | some run =>
        dsimp only
        cases hsum : summarizeArticle (some run) (truncate1000 content) with
        | error serr =>
          dsimp only
          exact pipelineInv_error _ _ _ _
            (by simp [List.all_append, Effect.isLog] <;> exact eff_log_false eff0 h0log)
            (by simp [List.all_append, Effect.isSaveAny] <;> exact eff_save_false eff0 h0save)
        | ok summary =>
          dsimp only
          by_cases h30 : summary.length < 30
          · rw [if_pos h30]
            exact pipelineInv_error _ _ _ _
              (by simp [List.all_append, Effect.isLog] <;> exact eff_log_false eff0 h0log)
              (by simp [List.all_append, Effect.isSaveAny] <;> exact eff_save_false eff0 h0save)
          · rw [if_neg h30]
            cases haud : generateAudio env summary with
            | error terr =>
              dsimp only
              exact pipelineInv_error _ _ _ _
                (by simp [List.all_append, Effect.isLog] <;> exact eff_log_false eff0 h0log)
                (by simp [List.all_append, Effect.isSaveAny] <;> exact eff_save_false eff0 h0save)
            | ok audioBytes =>
              dsimp only
              by_cases hzero : audioBytes = 0
              · rw [if_pos hzero]
                exact pipelineInv_error _ _ _ _
                  (by simp [List.all_append, Effect.isLog] <;> exact eff_log_false eff0 h0log)
                  (by simp [List.all_append, Effect.isSaveAny] <;> exact eff_save_false eff0 h0save)
              · rw [if_neg hzero]
                by_cases hbk : env.bucketPresent = true
                · rw [if_neg (by simp [hbk])]
                  cases hr2 : env.r2Put (str "podcast_" ++ generateCacheKey url ++ str ".mp3") with
                  | error msg =>
                    dsimp only
                    exact pipelineInv_error _ _ _ _
                      (by simp [List.all_append, Effect.isLog] <;> exact eff_log_false eff0 h0log)
                      (by simp [List.all_append, Effect.isSaveAny] <;> exact eff_save_false eff0 h0save)
                  | ok a =>
                    dsimp only
                    by_cases hdb : env.dbPresent = true
                    · rw [if_pos hdb]
                      refine ⟨?_, ?_, ?_⟩
                      · simp [List.all_append, Effect.isLog] <;> exact eff_log_false eff0 h0log
                      · intro rec oc hmem
                        simp only [List.mem_append, List.mem_singleton] at hmem
                        rcases hmem with ((((hmem | hmem) | hmem) | hmem) | hmem) | hmem
                        · have hfalse := List.all_eq_true.mp h0save _ hmem
                          simp [Effect.isSaveAny] at hfalse
                        · exact Effect.noConfusion hmem
                        · exact Effect.noConfusion hmem
                        · exact Effect.noConfusion hmem
                        · exact Effect.noConfusion hmem
                        · injection hmem with h1 h2
                          subst h1
                          refine ⟨rfl, rfl, haud, hzero, hr2, ?_, ?_⟩
                          · simp [assembleRecord, List.mem_append]
                          · simp [assembleRecord, List.mem_append]
                      · intro d hd hc
                        injection hd with h1
                        subst h1
                        refine ⟨rfl, rfl, rfl, ?_⟩
                        simp [assembleRecord, List.mem_append]
                    · rw [if_neg hdb]
                      refine ⟨?_, ?_, ?_⟩
                      · simp [List.all_append, Effect.isLog] <;> exact eff_log_false eff0 h0log
                      · intro rec oc hmem
                        simp only [List.mem_append, List.mem_singleton] at hmem
                        rcases hmem with (((hmem | hmem) | hmem) | hmem) | hmem
                        · have hfalse := List.all_eq_true.mp h0save _ hmem
                          simp [Effect.isSaveAny] at hfalse
                        · exact Effect.noConfusion hmem
                        · exact Effect.noConfusion hmem
                        · exact Effect.noConfusion hmem
                        · exact Effect.noConfusion hmem
                      · intro d hd hc
                        injection hd with h1
                        subst h1
                        refine ⟨rfl, rfl, rfl, ?_⟩
                        simp [assembleRecord, List.mem_append]
                · rw [if_pos hbk]
                  exact pipelineInv_error _ _ _ _
                    (by simp [List.all_append, Effect.isLog] <;> exact eff_log_false eff0 h0log)
                    (by simp [List.all_append, Effect.isSaveAny] <;> exact eff_save_false eff0 h0save)

theorem generate_inv (env : Env) (url userId origin : List Char) :
    PipelineInv env url (generatePodcastSync env url userId origin) := by
  unfold generatePodcastSync
  by_cases hdb : env.dbPresent = true
  · rw [if_pos hdb]
    cases hlk : env.lookup url with
    | error e =>
      dsimp only
      exact generateFresh_inv env url userId origin _ rfl rfl
    | ok o =>
      cases o with
      | none =>
        dsimp only
        exact generateFresh_inv env url userId origin _ rfl rfl
      | some rec =>
        dsimp only
        refine ⟨rfl, ?_, ?_⟩
        · intro rec2 oc hmem
          simp at hmem
        · intro d hd hc
          injection hd with h1
          subst h1
          simp at hc
  · rw [if_neg hdb]
    exact generateFresh_inv env url userId origin _ rfl rfl

/-- A successful `hasPre` test exhibits the tail after the prefix. -/
theorem hasPre_exists (pat : List Char) :
    ∀ s, hasPre pat s = true → ∃ t, s = pat ++ t := by
  induction pat with
  | nil => intro s _; exact ⟨s, rfl⟩
  | cons p ps ih =>
    intro s hs
    cases s with
    | nil => simp [hasPre] at hs
    | cons c cs =>
      simp only [hasPre, Bool.and_eq_true, beq_iff_eq] at hs
      obtain ⟨t, ht⟩ := ih cs hs.2
      exact ⟨t, by rw [hs.1, ht]; rfl⟩

/-- C1: when the store holds a completed record for the URL,
`generatePodcastSync` returns that stored record augmented with the
`cached` marker and a fully qualified audio URL, its only external call
being the database lookup — extraction, summarization and synthesis are
never invoked. -/
theorem cache_hit_short_circuit (env : Env) (url userId origin : List Char)
    (rec : PodcastRecord)
    (hdb : env.dbPresent = true)
    (hlk : env.lookup url = .ok (some rec))
    (hst : rec.status = str "completed")
    (hfile : rec.audioFileName ≠ [])
    (horigin : ∃ t, origin = str "http" ++ t) :
    generatePodcastSync env url userId origin =
      ⟨.ok ⟨augmentCachedAudioUrl origin rec, true⟩, [Effect.dbLookup url]⟩
    ∧ ((generatePodcastSync env url userId origin).effects.all
        (fun e => !e.isPipelineCall) = true)
    ∧ (∃ v, (augmentCachedAudioUrl origin rec).audioUrl = some v
        ∧ ∃ t2, v = str "http" ++ t2) := by
  have hmain : generatePodcastSync env url userId origin =
      ⟨.ok ⟨augmentCachedAudioUrl origin rec, true⟩, [Effect.dbLookup url]⟩ := by
    unfold generatePodcastSync
    rw [if_pos hdb, hlk]
  refine ⟨hmain, ?_, ?_⟩
  · rw [hmain]
    rfl
  · obtain ⟨t, ht⟩ := horigin
    have hne : rec.audioFileName.isEmpty = false := by
      cases hfn : rec.audioFileName with
      | nil => exact absurd hfn hfile
      | cons c cs => rfl
    unfold augmentCachedAudioUrl
    cases hau : rec.audioUrl with
    | none =>
      rw [if_pos (by simp [hne, audioUrlNotHttp])]
      exact ⟨origin ++ str "/audio/" ++ rec.audioFileName, rfl,
        t ++ str "/audio/" ++ rec.audioFileName, by rw [ht]; simp⟩
    | some u =>
      by_cases hh : hasPre (str "http") u = true
      · rw [if_neg (by simp [audioUrlNotHttp, hh])]
        exact ⟨u, hau, hasPre_exists (str "http") u hh⟩
      · rw [Bool.not_eq_true] at hh
        rw [if_pos (by simp [hne, audioUrlNotHttp, hh])]
        exact ⟨origin ++ str "/audio/" ++ rec.audioFileName, rfl,
          t ++ str "/audio/" ++ rec.audioFileName, by rw [ht]; simp⟩

/-- Witness for C1 at a concrete cached environment. -/
theorem cache_hit_short_circuit_witness :
    generatePodcastSync envHit urlStory ownerA originA =
      ⟨.ok ⟨augmentCachedAudioUrl originA recStored, true⟩, [Effect.dbLookup urlStory]⟩
    ∧ (∃ v, (augmentCachedAudioUrl originA recStored).audioUrl = some v
        ∧ ∃ t2, v = str "http" ++ t2) := by
  have h := cache_hit_short_circuit envHit urlStory ownerA originA recStored rfl rfl rfl
    (by decide) ⟨str "s://worker.example", by decide⟩
  exact ⟨h.1, h.2.2⟩

/-- C2 (amended): when extraction, summarization, synthesis and object
storage succeed but the record save raises or reports failure (the save
outcome `oc` is arbitrary — the orchestrator never consults it),
`generatePodcastSync` still returns the success result carrying the
assembled record; the save attempt and its outcome appear in the trace,
and no `ProcessingLogEntry` is recorded — the pipeline never invokes
`logProcessingError`. -/
theorem swallowed_persistence_failure (env : Env)
    (url userId origin content summary : List Char) (audioBytes : Nat)
    (oc : Except Unit Bool)
    (hdb : env.dbPresent = true)
    (hlk : env.lookup url = .ok none)
    (hscrape : scrapeWebpage env.fetchHtml url = .ok content)
    (hlen : ¬ content.length < 100)
    (hsum : summarizeArticle env.ai (truncate1000 content) = .ok summary)
    (h30 : ¬ summary.length < 30)
    (haud : generateAudio env summary = .ok audioBytes)
    (hzero : ¬ audioBytes = 0)
    (hbk : env.bucketPresent = true)
    (hr2 : env.r2Put (str "podcast_" ++ generateCacheKey url ++ str ".mp3") = .ok ())
    (hsave : env.save (assembleRecord env url userId origin (extractTitle url) summary
        content.length audioBytes
        (str "podcast_" ++ generateCacheKey url ++ str ".mp3")) = oc) :
    (generatePodcastSync env url userId origin).result =
      .ok ⟨assembleRecord env url userId origin (extractTitle url) summary
        content.length audioBytes
        (str "podcast_" ++ generateCacheKey url ++ str ".mp3"), false⟩
    ∧ Effect.dbSave (assembleRecord env url userId origin (extractTitle url) summary
        content.length audioBytes
        (str "podcast_" ++ generateCacheKey url ++ str ".mp3")) oc
        ∈ (generatePodcastSync env url userId origin).effects
    ∧ ((generatePodcastSync env url userId origin).effects.all
        (fun e => !e.isLog) = true) := by
  have hai : env.ai ≠ none := by
    intro h
    rw [h] at hsum
    simp [summarizeArticle] at hsum
  obtain ⟨run, hrun⟩ := Option.ne_none_iff_exists'.mp hai
  rw [hrun] at hsum
  unfold generatePodcastSync
  rw [if_pos hdb, hlk]
  dsimp only
  unfold generateFresh
  rw [hscrape]
  dsimp only
  rw [if_neg hlen, hrun]
  dsimp only
  rw [hsum]
  dsimp only
  rw [if_neg h30, haud]
  dsimp only
  rw [if_neg hzero]
  rw [if_neg (by simp [hbk])]
  rw [hr2]
  dsimp only
  rw [if_pos hdb, hsave]
  refine ⟨rfl, ?_, rfl⟩
  simp [List.mem_append]

set_option maxRecDepth 8000 in
/-- Counterexample to C2 as stated: in a concrete run in which every step
succeeds and the store save throws, `generate` returns success, the failed
save is in the trace, and yet no `ProcessingLogEntry` is recorded for the
save failure. -/
theorem swallowed_persistence_counterexample :
    (generatePodcastSync envSaveThrows urlStory ownerA originA).result.isOk = true
    ∧ ((generatePodcastSync envSaveThrows urlStory ownerA originA).effects.any
        Effect.isFailedSave = true)
    ∧ ((generatePodcastSync envSaveThrows urlStory ownerA originA).effects.all
        (fun e => !e.isLog) = true) := by
  refine ⟨by decide, by decide, by decide⟩

set_option maxRecDepth 8000 in
/-- Witness for the amended C2 at a concrete save-throwing environment. -/
theorem swallowed_persistence_witness :
    (generatePodcastSync envSaveThrows urlStory ownerA originA).result =
      .ok ⟨assembleRecord envSaveThrows urlStory ownerA originA (extractTitle urlStory)
        modelOut80 bodyPlain150.length 10000
        (str "podcast_" ++ generateCacheKey urlStory ++ str ".mp3"), false⟩
    ∧ ((generatePodcastSync envSaveThrows urlStory ownerA originA).effects.all
        (fun e => !e.isLog) = true) := by
  have h := swallowed_persistence_failure envSaveThrows urlStory ownerA originA
    bodyPlain150 modelOut80 10000 (.error ()) rfl rfl (by decide) (by decide)
    (by decide) (by decide) (by decide) (by decide) rfl rfl rfl
  exact ⟨h.1, h.2.2⟩

/-- C3 (amended): a record reaches the store save only when synthesis and
the audio-object write have both succeeded, every saved record has status
`completed`, and on any pipeline-step failure `generate` returns a failure
result without attempting any record save — and without emitting any
`ProcessingLogEntry`. -/
theorem record_creation_invariant (env : Env) (url userId origin : List Char)
    (rec : PodcastRecord) (oc : Except Unit Bool) :
    (Effect.dbSave rec oc ∈ (generatePodcastSync env url userId origin).effects →
      rec.status = str "completed"
      ∧ (generatePodcastSync env url userId origin).result = .ok ⟨rec, false⟩
      ∧ generateAudio env rec.summary = .ok rec.audioSizeBytes
      ∧ rec.audioSizeBytes ≠ 0
      ∧ env.r2Put rec.audioFileName = .ok ())
    ∧ (∀ err, (generatePodcastSync env url userId origin).result = .error err →
        (Effect.dbSave rec oc ∉ (generatePodcastSync env url userId origin).effects)
        ∧ ((generatePodcastSync env url userId origin).effects.all
            (fun e => !e.isLog) = true)) := by
  obtain ⟨hlog, hsave, hok⟩ := generate_inv env url userId origin
  constructor
  · intro hmem
    obtain ⟨h1, h2, h3, h4, h5, _, _⟩ := hsave rec oc hmem
    exact ⟨h1, h2, h3, h4, h5⟩
  · intro err herr
    refine ⟨?_, hlog⟩
    intro hmem
    obtain ⟨_, h2, _⟩ := hsave rec oc hmem
    rw [herr] at h2
    simp at h2

set_option maxRecDepth 8000 in
/-- Counterexample to C3 as stated: in a concrete run in which the model
call fails, `generate` returns a failure and saves nothing, but no
`ProcessingLogEntry` is emitted either. -/
theorem record_creation_counterexample :
    (∃ err, (generatePodcastSync envAiFails urlStory ownerA originA).result = .error err)
    ∧ ((generatePodcastSync envAiFails urlStory ownerA originA).effects.all
        (fun e => !e.isLog) = true)
    ∧ ((generatePodcastSync envAiFails urlStory ownerA originA).effects.all
        (fun e => !e.isSaveAny) = true) := by
  exact ⟨⟨GenError.summarizeFailed (.aiFailure (str "model error")), by decide⟩,
    by decide, by decide⟩

set_option maxRecDepth 8000 in
/-- Witness for the amended C3 at a concrete all-success environment. -/
theorem record_creation_witness :
    (assembleRecord envOk urlStory ownerA originA (extractTitle urlStory) modelOut80
        bodyPlain150.length 10000
        (str "podcast_" ++ generateCacheKey urlStory ++ str ".mp3")).status
      = str "completed"
    ∧ (generatePodcastSync envOk urlStory ownerA originA).result =
        .ok ⟨assembleRecord envOk urlStory ownerA originA (extractTitle urlStory) modelOut80
          bodyPlain150.length 10000
          (str "podcast_" ++ generateCacheKey urlStory ++ str ".mp3"), false⟩ := by
  have h := (record_creation_invariant envOk urlStory ownerA originA
    (assembleRecord envOk urlStory ownerA originA (extractTitle urlStory) modelOut80
      bodyPlain150.length 10000
      (str "podcast_" ++ generateCacheKey urlStory ++ str ".mp3")) (.ok true)).1 (by decide)
  exact ⟨h.1, h.2.1⟩

/-- C10: every fresh successful generation stores the audio object under
the key `podcast_` ++ `generateCacheKey url` ++ `.mp3`, a pure function of
the URL alone; the saved record's `audioFileName` and `cacheKey` equal the
derived values, and any two fresh successes for the same URL use the same
object key. -/
theorem audio_object_key (env : Env) (url userId origin : List Char) (d : ResultData)
    (hok : (generatePodcastSync env url userId origin).result = .ok d)
    (hfresh : d.cached = false) :
    d.record.audioFileName = str "podcast_" ++ generateCacheKey url ++ str ".mp3"
    ∧ d.record.cacheKey = generateCacheKey url
    ∧ Effect.r2Put d.record.audioFileName ∈ (generatePodcastSync env url userId origin).effects
    ∧ (∀ (env2 : Env) (userId2 origin2 : List Char) (d2 : ResultData),
        (generatePodcastSync env2 url userId2 origin2).result = .ok d2 →
        d2.cached = false →
        d2.record.audioFileName = d.record.audioFileName) := by
  obtain ⟨_, _, hchar⟩ := generate_inv env url userId origin
  obtain ⟨_, h2, h3, h4⟩ := hchar d hok hfresh
  refine ⟨h2, h3, h4, ?_⟩
  intro env2 userId2 origin2 d2 hok2 hfresh2
  obtain ⟨_, h2', _, _⟩ := (generate_inv env2 url userId2 origin2).2.2 d2 hok2 hfresh2
  rw [h2', h2]

set_option maxRecDepth 8000 in
/-- Witness for C10 at a concrete all-success environment. -/
theorem audio_object_key_witness :
    (assembleRecord envOk urlStory ownerA originA (extractTitle urlStory) modelOut80
        bodyPlain150.length 10000
        (str "podcast_" ++ generateCacheKey urlStory ++ str ".mp3")).audioFileName
      = str "podcast_" ++ generateCacheKey urlStory ++ str ".mp3"
    ∧ (assembleRecord envOk urlStory ownerA originA (extractTitle urlStory) modelOut80
        bodyPlain150.length 10000
        (str "podcast_" ++ generateCacheKey urlStory ++ str ".mp3")).cacheKey
      = generateCacheKey urlStory := by
  have h := audio_object_key envOk urlStory ownerA originA
    ⟨assembleRecord envOk urlStory ownerA originA (extractTitle urlStory) modelOut80
      bodyPlain150.length 10000
      (str "podcast_" ++ generateCacheKey urlStory ++ str ".mp3"), false⟩
    (by decide) rfl
  exact ⟨h.1, h.2.1⟩

/-- Shared fallback lemma: whenever the URL parses but the derived title is
under 3 characters, `extractTitle` returns the literal `"Article"`. -/
theorem title_general_fallback :
    ∀ url u, parseUrl url = some u → (rawTitle u).length < 3 →
      extractTitle url = str "Article" := by
  intro url u hp hlen
  unfold extractTitle
  rw [hp]
  dsimp only
  have hd : decide ((rawTitle u).length < 3) = true := decide_eq_true hlen
  rw [hd, Bool.or_true]
  rw [if_pos (rfl : true = true)]
  rw [if_neg (by decide)]

/-- C5: `extractTitle` on `"https://x.com/"` routes through the hostname
(`"x.com"`), whose processed form is the 1-character `"X"`, so the under-3
fallback yields `"Article"`; `extractTitle "not a url"` is `"Article"`
because parsing fails; and in general a parsed URL whose derived title is
empty or under 3 characters falls back to `"Article"`. -/
theorem title_derivation_fallback :
    parseUrl (str "https://x.com/") = some ⟨str "x.com", str "/"⟩
    ∧ rawTitle ⟨str "x.com", str "/"⟩ = str "X"
    ∧ extractTitle (str "https://x.com/") = str "Article"
    ∧ extractTitle (str "not a url") = str "Article"
    ∧ (∀ url u, parseUrl url = some u → (rawTitle u).length < 3 →
        extractTitle url = str "Article") := by
  refine ⟨by decide, by decide, ?_, by decide, title_general_fallback⟩
  exact title_general_fallback (str "https://x.com/") ⟨str "x.com", str "/"⟩
    (by decide) (by decide)

/-- Witness for C5 at the concrete spec inputs. -/
theorem title_derivation_fallback_witness :
    extractTitle (str "https://x.com/") = str "Article" :=
  (title_derivation_fallback).2.2.1

/-- C6: extraction fails when the fetched body is under 100 characters or
when the cleaned (and truncated) text is under 100 characters, and
succeeds on exactly 100 characters of plain text that the cleanup leaves
unchanged. -/
theorem minimum_content_rejection
    (fetchHtml : List Char → Except (List Char) (List Char)) (url html : List Char) :
    (fetchHtml url = .ok html → html.length < 100 →
        scrapeWebpage fetchHtml url = .error .insufficientBody)
    ∧ (fetchHtml url = .ok html → ¬ html.length < 100 →
        (truncate1000 (cleanHtml html)).length < 100 →
        scrapeWebpage fetchHtml url = .error .insufficientContent)
    ∧ (fetchHtml url = .ok html → html.length = 100 → cleanHtml html = html →
        scrapeWebpage fetchHtml url = .ok html) := by
  refine ⟨?_, ?_, ?_⟩
  · intro hf hl
    unfold scrapeWebpage
    rw [hf]
    dsimp only
    rw [if_pos hl]
  · intro hf hl hc
    unfold scrapeWebpage
    rw [hf]
    dsimp only
    rw [if_neg hl, if_pos hc]
  · intro hf hl hcl
    unfold scrapeWebpage
    rw [hf]
    dsimp only
    rw [if_neg (by omega), hcl]
    have ht : truncate1000 html = html := by
      unfold truncate1000 truncateAtBoundary
      rw [if_neg (by omega)]
    rw [ht, if_neg (by omega)]

set_option maxRecDepth 8000 in
/-- Witness for C6 at a 50-character body, a body cleaning to 3
characters, and an exactly-100-character plain body. -/
theorem minimum_content_rejection_witness :
    scrapeWebpage (fun _ => .ok body50) urlStory = .error .insufficientBody
    ∧ scrapeWebpage (fun _ => .ok bodyThin) urlStory = .error .insufficientContent
    ∧ scrapeWebpage (fun _ => .ok body100) urlStory = .ok body100 := by
  refine ⟨?_, ?_, ?_⟩
  · exact (minimum_content_rejection (fun _ => .ok body50) urlStory body50).1
      rfl (by decide)
  · exact (minimum_content_rejection (fun _ => .ok bodyThin) urlStory bodyThin).2.1
      rfl (by decide) (by decide)
  · exact (minimum_content_rejection (fun _ => .ok body100) urlStory body100).2.2
      rfl (by decide) (by decide)

/-- C7: the summarizer rejects every input under 100 characters with an
invalid-input error, rejects a model result whose trimmed and
preamble-stripped form is under 50 characters with an insufficient-output
error, and otherwise returns exactly the cleaned script. -/
theorem summarizer_thresholds (ai : AiRun) (content raw : List Char) :
    (content.length < 100 →
      ∃ e, summarizeArticle (some ai) content = .error e ∧ e.isInvalidInput = true)
    ∧ (¬ content.length < 100 → ai (truncate1000 content) = .ok raw →
        ((cleanSummary raw).length < 50 →
          summarizeArticle (some ai) content =
            .error (.insufficientOutput (cleanSummary raw).length))
        ∧ (¬ (cleanSummary raw).length < 50 →
          summarizeArticle (some ai) content = .ok (cleanSummary raw))) := by
  constructor
  · intro hlen
    simp only [summarizeArticle]
    by_cases hemp : content.isEmpty
    · refine ⟨.invalidContent, ?_, rfl⟩
      rw [if_pos hemp]
    · refine ⟨.contentTooShort, ?_, rfl⟩
      rw [if_neg hemp, if_pos hlen]
  · intro hlen hai
    simp only [summarizeArticle]
    have hemp : ¬ content.isEmpty = true := by
      cases content with
      | nil => simp at hlen
      | cons c cs => simp
    rw [if_neg hemp, if_neg hlen, hai]
    dsimp only
    constructor
    · intro hshort
      have hd : decide ((cleanSummary raw).length < 50) = true := decide_eq_true hshort
      rw [hd, Bool.or_true, if_pos (rfl : true = true)]
    · intro hlong
      have hie : (cleanSummary raw).isEmpty = false := by
        cases h : cleanSummary raw with
        | nil => rw [h] at hlong; simp at hlong
        | cons c cs => rfl
      have hd : decide ((cleanSummary raw).length < 50) = false :=
        decide_eq_false hlong
      rw [hd, hie, Bool.or_false, if_neg (by simp : ¬ false = true)]

set_option maxRecDepth 8000 in
/-- Witness for C7 at concrete inputs for all three outcomes. -/
theorem summarizer_thresholds_witness :
    (∃ e, summarizeArticle (some (fun _ => .ok modelOut80)) body50 = .error e
        ∧ e.isInvalidInput = true)
    ∧ summarizeArticle (some (fun _ => .ok (str "  ok  "))) body100 =
        .error (.insufficientOutput (cleanSummary (str "  ok  ")).length)
    ∧ cleanSummary (str "  ok  ") = str "ok"
    ∧ summarizeArticle (some (fun _ => .ok modelOut80)) body100 =
        .ok (cleanSummary modelOut80)
    ∧ cleanSummary modelOut80 = modelOut80 := by
  refine ⟨?_, ?_, by decide, ?_, by decide⟩
  · exact (summarizer_thresholds (fun _ => .ok modelOut80) body50 modelOut80).1 (by decide)
  · exact ((summarizer_thresholds (fun _ => .ok (str "  ok  ")) body100
      (str "  ok  ")).2 (by decide) rfl).1 (by decide)
  · exact ((summarizer_thresholds (fun _ => .ok modelOut80) body100
      modelOut80).2 (by decide) rfl).2 (by decide)

/-- C8: scripts of at most 800 characters are submitted to the TTS
capability unchanged; longer scripts are cut to at most the first 800
characters, at the last period when it lies after position 600; and
`generateAudio` submits exactly this truncated text to the TTS oracle. -/
theorem synthesis_truncation (env : Env) (s : List Char) :
    (¬ 800 < s.length → truncate800 s = s)
    ∧ (800 < s.length →
        (truncate800 s).length ≤ 800
        ∧ ((∀ j, j < 800 → s.get? j ≠ some '.') → truncate800 s = s.take 800)
        ∧ (∀ i, 600 < i → i < 800 → s.get? i = some '.' →
            (∀ j, j < 800 → i < j → s.get? j ≠ some '.') →
            truncate800 s = s.take (i + 1) ∧ (truncate800 s).getLast? = some '.'))
    ∧ (env.ttsKeyPresent = true → ¬ (trimWs s).length = 0 →
        generateAudio env s =
          match env.ttsRun (truncate800 s) with
          | .error msg => .error (.upstream msg)
          | .ok n => if n = 0 then .error .emptyOutput else .ok n) := by
  unfold truncate800
  refine ⟨?_, ?_, ?_⟩
  · intro h
    unfold truncateAtBoundary
    rw [if_neg h]
  · intro h
    refine ⟨truncateAtBoundary_length_le 800 600 s h, ?_, ?_⟩
    · intro hnp
      exact truncateAtBoundary_no_period 800 600 s h hnp
    · intro i hb hi hp hl
      have heq := truncateAtBoundary_period 800 600 s i h hb hi hp hl
      refine ⟨heq, ?_⟩
      rw [heq]
      exact take_getLast_period s i (lt_trans hi h) hp
  · intro hkey hne
    unfold generateAudio
    rw [if_neg (by simp [hkey]), if_neg hne]
    rfl

theorem specimen650_length : specimen650.length = 900 := by
  unfold specimen650
  rw [List.length_append, List.length_cons, List.length_replicate, List.length_replicate]

theorem specimen650_period : specimen650.get? 650 = some '.' := by
  have hlen : (List.replicate 650 'a').length = 650 := List.length_replicate 650 'a'
  unfold specimen650
  rw [List.get?_append_right (by rw [hlen])]
  rw [hlen, Nat.sub_self, List.get?_cons_zero]

theorem specimen650_no_late_period :
    ∀ j, j < 800 → 650 < j → specimen650.get? j ≠ some '.' := by
  intro j hj hgt
  have hlen : (List.replicate 650 'a').length = 650 := List.length_replicate 650 'a'
  unfold specimen650
  rw [List.get?_append_right (by rw [hlen]; omega)]
  rw [hlen]
  have hsub : j - 650 = (j - 651) + 1 := by omega
  rw [hsub, List.get?_cons_succ, get?_replicate_spec]
  split
  · decide
  · simp

theorem specimen900_length : specimen900.length = 900 := by
  unfold specimen900
  rw [List.length_replicate]

theorem specimen900_no_period :
    ∀ j, j < 800 → specimen900.get? j ≠ some '.' := by
  intro j _
  unfold specimen900
  rw [get?_replicate_spec]
  split
  · decide
  · simp

set_option maxRecDepth 8000 in
/-- Witness for C8 at a 900-character script with a period at 650, a
period-free 900-character script, and a short script. -/
theorem synthesis_truncation_witness :
    truncate800 specimen650 = specimen650.take 651
    ∧ (truncate800 specimen650).getLast? = some '.'
    ∧ truncate800 specimen900 = specimen900.take 800
    ∧ truncate800 (str "short text.") = str "short text."
    ∧ generateAudio envOk (str "short text.") = .ok 10000 := by
  have h1 := ((synthesis_truncation envOk specimen650).2.1
      (by rw [specimen650_length]; omega)).2.2 650
    (by omega) (by omega) specimen650_period specimen650_no_late_period
  have h2 := ((synthesis_truncation envOk specimen900).2.1
      (by rw [specimen900_length]; omega)).2.1 specimen900_no_period
  have h3 := (synthesis_truncation envOk (str "short text.")).1 (by decide)
  have h4 := (synthesis_truncation envOk (str "short text.")).2.2 rfl (by decide)
  refine ⟨h1.1, h1.2, h2, h3, ?_⟩
  rw [h4]
  decide

/-- The cache-key hash fold depends only on the character codes. -/
theorem hash_fold_congr :
    ∀ (us vs : List Char) (a : Int),
      us.map Char.toNat = vs.map Char.toNat →
      us.foldl hashStep a = vs.foldl hashStep a := by
  intro us
  induction us with
  | nil =>
    intro vs a h
    cases vs with
    | nil => rfl
    | cons d ds => simp at h
  | cons c cs ih =>
    intro vs a h
    cases vs with
    | nil => simp at h
    | cons d ds =>
      simp only [List.map_cons, List.cons.injEq] at h
      simp only [List.foldl_cons]
      rw [show hashStep a c = hashStep a d by unfold hashStep; rw [h.1]]
      exact ih ds _ h.2

/-- C9: `generateCacheKey` is a pure function of the URL character codes —
two URLs with the same code-unit sequence always hash to the same key, in
any call and any process, since the computation reads nothing else. -/
theorem cache_key_pure (u v : List Char)
    (h : u.map Char.toNat = v.map Char.toNat) :
    generateCacheKey u = generateCacheKey v := by
  unfold generateCacheKey hashString
  rw [hash_fold_congr u v 0 h]

set_option maxRecDepth 8000 in
/-- Witness for C9: repeated application on the same URL, with the
concrete key value. -/
theorem cache_key_pure_witness :
    generateCacheKey urlStory = generateCacheKey urlStory
    ∧ generateCacheKey urlStory = str "r8v9js" :=
  ⟨cache_key_pure urlStory urlStory rfl, by decide⟩
